import Mathlib

/-!
Verification development for the pdfchat RAG pipeline.

The source is a small Next.js service. Its core logic lives in pure or
effect-light TypeScript functions which are shallowly embedded here:

* strings are embedded as List Char, with JS String.prototype.trim and
  String.prototype.slice modelled faithfully (including negative indices);
* JS numbers used as vector components are idealised as real numbers;
* Math.random is modelled as an ambient stream rng : Nat -> Real carried in
  an environment record, and remote HTTP embedding calls as an oracle
  fetchEmb together with an explicit count of calls made;
* the process-wide Map stores are association lists in insertion order,
  which matches JS Map iteration semantics.

Each claim theorem is stated at the end of the file.
-/

namespace PdfChat

/-! Characters and JS string primitives. -/

/-- Code points treated as whitespace by JS String.prototype.trim. -/
def jsWsCodes : List Nat :=
  [9, 10, 11, 12, 13, 32, 160, 0x1680, 0x2000, 0x2001, 0x2002, 0x2003,
   0x2004, 0x2005, 0x2006, 0x2007, 0x2008, 0x2009, 0x200A, 0x2028, 0x2029,
   0x202F, 0x205F, 0x3000, 0xFEFF]

/-- Whether a character is JS whitespace. -/
def isJsWs (c : Char) : Bool := jsWsCodes.contains c.toNat

/-- JS String.prototype.trim on a character list. -/
def trimL (l : List Char) : List Char :=
  ((l.dropWhile isJsWs).reverse.dropWhile isJsWs).reverse

/-- Normalisation of one JS slice index against a string of length n:
negative indices count from the end, and indices are clamped to [0, n]. -/
def jsIndex (n : Nat) (i : Int) : Nat :=
  if i < 0 then ((n : Int) + i).toNat else min i.toNat n

/-- JS String.prototype.slice(s, e) on a character list. -/
def jsSlice (l : List Char) (s e : Int) : List Char :=
  (l.take (jsIndex l.length e)).drop (jsIndex l.length s)

/-- Whether the list s starts with the list p, as in JS String.startsWith. -/
def startsWithL (p s : List Char) : Bool := decide (s.take p.length = p)

/-! Chunker, from chunkText in src/app/api/process-document/route.ts.
The while loop is embedded with an explicit fuel counter; running out of
fuel returns none.  chunkFuel below is proven sufficient for the default
parameters, so chunkText never actually hits the getD fallback. -/

/-- Loop body of chunkText: while (start < cleanText.length && chunks.length
< maxChunks) take the window [start, start+chunkSize), trim it, push it if
non-empty, then set start = end - overlap. -/
def chunkGo (clean : List Char) (chunkSize overlap maxChunks : Nat) :
    Nat → Int → List (List Char) → Option (List (List Char))
  | 0, _, _ => none
  | fuel + 1, start, chunks =>
    if start < (clean.length : Int) ∧ chunks.length < maxChunks then
      let e : Int := min (start + (chunkSize : Int)) (clean.length : Int)
      let trimmedChunk := trimL (jsSlice clean start e)
      chunkGo clean chunkSize overlap maxChunks fuel (e - (overlap : Int))
        (if trimmedChunk = [] then chunks else chunks ++ [trimmedChunk])
    else some chunks

/-- Fuel sufficient for the loop to run to completion (proved below for the
default parameters). -/
def chunkFuel (clean : List Char) (overlap maxChunks : Nat) : Nat :=
  clean.length + (overlap + 1) * maxChunks + 1

/-- chunkText as an Option-valued run: some result when the loop exits by
its own condition within the allotted fuel. -/
def chunkTextRun (text : List Char) (chunkSize : Nat := 1000)
    (overlap : Nat := 200) (maxChunks : Nat := 50) :
    Option (List (List Char)) :=
  if trimL text = [] then some []
  else chunkGo (trimL text) chunkSize overlap maxChunks
    (chunkFuel (trimL text) overlap maxChunks) 0 []

/-- chunkText from src/app/api/process-document/route.ts: validates the
input, then slides the window.  Invalid (whitespace-only) input yields []. -/
def chunkText (text : List Char) (chunkSize : Nat := 1000)
    (overlap : Nat := 200) (maxChunks : Nat := 50) : List (List Char) :=
  (chunkTextRun text chunkSize overlap maxChunks).getD []

/-! Chunk validation and embeddings, from the same route. -/

/-- Keep the element at each position only if it is the first occurrence,
as the JS idiom array.filter((c, i, a) => a.indexOf(c) === i) does. -/
def dedupGo [DecidableEq α] : List α → List α → List α
  | _, [] => []
  | seen, x :: xs =>
    if x ∈ seen then dedupGo seen xs else x :: dedupGo (x :: seen) xs

/-- First-occurrence deduplication preserving order. -/
def dedupKeepFirst [DecidableEq α] (l : List α) : List α := dedupGo [] l

/-- validateAndCleanChunks: keep chunks of trimmed length at least 3, trim
them, and drop exact duplicates (first occurrence wins). -/
def validateAndCleanChunks (chunks : List (List Char)) : List (List Char) :=
  dedupKeepFirst ((chunks.filter (fun c => 3 ≤ (trimL c).length)).map trimL)

/-- Environment for the embedding client: whether GRAVIXLAYER_API_KEY is
configured, the remote embedding oracle (none models any failure: non-ok
status, malformed body or network error), and the Math.random stream. -/
structure EmbedEnv where
  apiKey : Bool
  fetchEmb : List Char → Option (List ℝ)
  rng : Nat → ℝ

/-- generateSingleDummyEmbedding: 1536 pseudo-random components.  The seed
selects a fresh segment of the random stream. -/
def generateSingleDummyEmbedding (env : EmbedEnv) (seed : Nat) : List ℝ :=
  (List.range 1536).map (fun i => env.rng (seed * 1536 + i))

/-- generateDummyEmbeddings: count clamped to [1, 100] dummy vectors. -/
def generateDummyEmbeddings (env : EmbedEnv) (count : Nat) : List (List ℝ) :=
  (List.range (max 1 (min count 100))).map
    (fun j => generateSingleDummyEmbedding env j)

/-- generateEmbeddings from src/app/api/process-document/route.ts.  Returns
the produced vectors together with the number of remote calls made.
Validation drops short and duplicate texts, the batch is capped at 50; with
no credential every vector is a local dummy and no call is made; with a
credential each text is fetched one at a time and any single failure
degrades that one item to a dummy vector. -/
def generateEmbeddings (env : EmbedEnv) (texts : List (List Char)) :
    List (List ℝ) × Nat :=
  let validTexts := validateAndCleanChunks texts
  if validTexts = [] then (generateDummyEmbeddings env 1, 0)
  else
    let limitedTexts := validTexts.take 50
    if env.apiKey = false then
      (generateDummyEmbeddings env limitedTexts.length, 0)
    else
      (limitedTexts.enum.map (fun p =>
        match env.fetchEmb p.2 with
        | some v => v
        | none => generateSingleDummyEmbedding env p.1),
       limitedTexts.length)

/-! Document store.  The process route stores plain document records keyed
by fileId; the chat route expects a nested Map keyed by sessionId.  The
dynamic typing of the stored value is captured by StoreVal. -/

/-- DocumentData as stored by the processing endpoint. -/
structure DocumentData where
  fileId : List Char
  filename : List Char
  chunks : List (List Char)
  embeddings : List (List ℝ)
  createdAt : List Char

/-- A value held in the global documentStore: either a plain DocumentData
record (what the process route writes) or a nested Map from fileId to
DocumentData (what the chat route's runtime check looks for). -/
inductive StoreVal where
  | doc (d : DocumentData)
  | map (m : List (List Char × DocumentData))

/-- Map.get on an association list. -/
def lookupKey (store : List (List Char × StoreVal)) (k : List Char) :
    Option StoreVal :=
  (store.find? (fun p => p.1 = k)).map Prod.snd

/-- Map.set on an association list: replace in place or append. -/
def setKey (store : List (List Char × StoreVal)) (k : List Char)
    (v : StoreVal) : List (List Char × StoreVal) :=
  if store.any (fun p => p.1 = k) then
    store.map (fun p => if p.1 = k then (k, v) else p)
  else store ++ [(k, v)]

/-- The POST handler of /api/process-document, from extraction onward: the
text argument stands for the PDF text already extracted.  Returns the
stored document, or none when the request is rejected (too little text or
no chunks). -/
def processDocument (env : EmbedEnv) (nowIso fileId filename text : List Char) :
    Option DocumentData :=
  if (trimL text).length < 10 then none
  else
    let chunks := chunkText text
    if chunks = [] then none
    else some { fileId := fileId, filename := filename, chunks := chunks,
                embeddings := (generateEmbeddings env chunks).1,
                createdAt := nowIso }

/-- Effect of one successful or failed processing request on the global
documentStore: on success the record is stored under the fileId key. -/
def processDocumentStore (env : EmbedEnv)
    (nowIso fileId filename text : List Char)
    (store : List (List Char × StoreVal)) : List (List Char × StoreVal) :=
  match processDocument env nowIso fileId filename text with
  | some d => setKey store fileId (StoreVal.doc d)
  | none => store

/-! Cosine similarity and retrieval, from the chat route. -/

/-- cosineSimilarity with validation: mismatched or empty inputs and
zero-magnitude vectors give 0. -/
noncomputable def cosineSimilarity (a b : List ℝ) : ℝ :=
  if a.length = b.length ∧ a.length ≠ 0 then
    if Real.sqrt ((a.map (fun v => v * v)).sum) = 0 ∨
        Real.sqrt ((b.map (fun v => v * v)).sum) = 0 then 0
    else ((a.zip b).map (fun p => p.1 * p.2)).sum /
      (Real.sqrt ((a.map (fun v => v * v)).sum) *
        Real.sqrt ((b.map (fun v => v * v)).sum))
  else 0

/-- The candidate pool built by retrieveRelevantChunks: chunks paired with
embeddings up to the common prefix (the minLength loop), keeping trimmed
non-empty chunks whose similarity is strictly positive. -/
noncomputable def candidateChunks (queryEmbedding : List ℝ)
    (documents : List DocumentData) : List (List Char × ℝ) :=
  documents.flatMap (fun d =>
    (d.chunks.zip d.embeddings).filterMap (fun p =>
      if trimL p.1 = [] then none
      else if 0 < cosineSimilarity queryEmbedding p.2 then
        some (trimL p.1, cosineSimilarity queryEmbedding p.2)
      else none))

/-- Stable descending insertion: place x after every earlier element of
similarity at least x's, matching the stable JS sort with comparator
(a, b) => b.similarity - a.similarity. -/
noncomputable def insertDesc (x : List Char × ℝ) :
    List (List Char × ℝ) → List (List Char × ℝ)
  | [] => [x]
  | y :: ys => if y.2 < x.2 then x :: y :: ys else y :: insertDesc x ys

/-- Stable sort by descending similarity. -/
noncomputable def sortDesc (l : List (List Char × ℝ)) :
    List (List Char × ℝ) :=
  l.foldl (fun acc x => insertDesc x acc) []

/-- retrieveRelevantChunks: rank the candidate pool and return the chunk
texts for topK clamped to [1, 10]; any empty stage yields []. -/
noncomputable def retrieveRelevantChunks (queryEmbedding : List ℝ)
    (documents : List DocumentData) (topK : Nat := 3) : List (List Char) :=
  if documents.length = 0 then []
  else if queryEmbedding.length = 0 then []
  else if (candidateChunks queryEmbedding documents).length = 0 then []
  else ((sortDesc (candidateChunks queryEmbedding documents)).take
    (max 1 (min topK 10))).map Prod.fst

/-- generateQueryEmbedding: empty queries and missing credential fall back
to a dummy vector, as does any remote failure. -/
def generateQueryEmbedding (env : EmbedEnv) (query : List Char) : List ℝ :=
  if trimL query = [] then generateSingleDummyEmbedding env 0
  else if env.apiKey = false then generateSingleDummyEmbedding env 0
  else
    match env.fetchEmb (trimL query) with
    | some v => v
    | none => generateSingleDummyEmbedding env 0

/-! Chat message processing, from the chat route's POST handler. -/

/-- A chat message as forwarded upstream. -/
structure ChatMsg where
  role : List Char
  content : List Char
deriving DecidableEq

/-- Role string of user messages. -/
def userRole : List Char := "user".toList

/-- Role string of the injected context message. -/
def systemRole : List Char := "system".toList

/-- Fixed preamble of the injected context message. -/
def contextPreamble : List Char :=
  "Use the following context from uploaded documents to answer questions. If the answer is not in the context, say so clearly.\n\nContext:\n".toList

/-- Separator used by relevantChunks.join. -/
def chunkJoinSep : List Char := "\n\n---\n\n".toList

/-- JS Array.prototype.join on character lists. -/
def joinChunks (l : List (List Char)) : List Char :=
  (l.intersperse chunkJoinSep).flatten

/-- The RAG stage of the chat POST handler: starting from the request's
messages, when useRAG is set, the sessionId key is looked up in the global
documentStore and the value is used only if it passes the runtime Map check
(typeof value.keys === "function"); then the last user message is embedded,
chunks are retrieved, and a system context message is spliced in before the
last position.  Every failing check forwards the messages unchanged. -/
noncomputable def chatProcessMessages (env : EmbedEnv)
    (store : List (List Char × StoreVal)) (sessionId : Option (List Char))
    (messages : List ChatMsg) (useRAG : Bool) : List ChatMsg :=
  if useRAG = false then messages
  else
    let sessionDocs : Option (List (List Char × DocumentData)) :=
      match sessionId with
      | none => none
      | some sid =>
        match lookupKey store sid with
        | some (StoreVal.map m) => some m
        | _ => none
    match sessionDocs with
    | none => messages
    | some m =>
      if m.length = 0 then messages
      else
        match (messages.filter (fun msg => msg.role = userRole)).getLast? with
        | none => messages
        | some lastUser =>
          if lastUser.content = [] then messages
          else
            let queryEmbedding := generateQueryEmbedding env lastUser.content
            let relevantChunks :=
              retrieveRelevantChunks queryEmbedding (m.map Prod.snd) 3
            if relevantChunks = [] then messages
            else
              messages.dropLast ++
                [{ role := systemRole,
                   content := contextPreamble ++ joinChunks relevantChunks },
                 lastUser]

/-! Session lifecycle, from src/app/api/cleanup/route.ts and its variant. -/

/-- The ownership marker separator in uploaded file names. -/
def ownerSep : List Char := "__".toList

/-- Shared mutable state touched by the cleanup route: the activity map,
the document store and the uploads directory listing. -/
structure SessionState where
  sessionMeta : List (List Char × Int)
  documentStore : List (List Char × StoreVal)
  files : List (List Char)
deriving Inhabited

/-- One iteration of cleanupIdleSessions: when a session has been idle
strictly longer than idleMs, delete its prefix-matched files, its document
store entry and its activity entry, and count it. -/
def cleanupStep (now idleMs : Int) (acc : SessionState × Nat)
    (p : List Char × Int) : SessionState × Nat :=
  if idleMs < now - p.2 then
    ({ sessionMeta := acc.1.sessionMeta.filter (fun q => q.1 ≠ p.1),
       documentStore := acc.1.documentStore.filter (fun q => q.1 ≠ p.1),
       files := acc.1.files.filter
         (fun f => !(startsWithL (p.1 ++ ownerSep) f)) },
     acc.2 + 1)
  else acc

/-- cleanupIdleSessions: sweep every tracked session, reclaiming the idle
ones, and return the new state with the count of sessions reclaimed. -/
def cleanupIdleSessions (now : Int) (st : SessionState)
    (idleMs : Int := 3600000) : SessionState × Nat :=
  st.sessionMeta.foldl (cleanupStep now idleMs) (st, 0)

/-- clearUploadsDirForSession: delete exactly the files carrying the
session's ownership marker, reporting how many were deleted. -/
def clearUploadsDirForSession (sid : List Char) (st : SessionState) :
    SessionState × Nat :=
  ({ st with
      files := st.files.filter (fun f => !(startsWithL (sid ++ ownerSep) f)) },
   (st.files.filter (fun f => startsWithL (sid ++ ownerSep) f)).length)

/-- clearDocumentStoreForSession: drop the session's document store entry
(reporting 1 when it existed) and its activity entry. -/
def clearDocumentStoreForSession (sid : List Char) (st : SessionState) :
    SessionState × Nat :=
  ({ st with
      documentStore := st.documentStore.filter (fun q => q.1 ≠ sid),
      sessionMeta := st.sessionMeta.filter (fun q => q.1 ≠ sid) },
   if st.documentStore.any (fun q => q.1 = sid) then 1 else 0)

/-- Response shape of the cleanup POST handler. -/
structure CleanupResponse where
  status : Nat
  success : Bool
  error : Option (List Char)
  idleCleaned : Nat
  uploadsDeleted : Option Nat
  documentsCleared : Option Nat
deriving DecidableEq

/-- Error message returned when no session cookie is present. -/
def noSessionMsg : List Char := "No sessionId found in cookies.".toList

/-- The cleanup POST handler: always run the idle sweep first; with no
session cookie answer 400 with the error body (still reporting the sweep
count); otherwise clear the requesting session and answer success. -/
def cleanupPOST (now : Int) (sessionId : Option (List Char))
    (st : SessionState) : CleanupResponse × SessionState :=
  let swept := cleanupIdleSessions now st
  match sessionId with
  | none =>
    ({ status := 400, success := false, error := some noSessionMsg,
       idleCleaned := swept.2, uploadsDeleted := none,
       documentsCleared := none }, swept.1)
  | some sid =>
    let uploads := clearUploadsDirForSession sid swept.1
    let docs := clearDocumentStoreForSession sid uploads.1
    ({ status := 200, success := true, error := none,
       idleCleaned := swept.2, uploadsDeleted := some uploads.2,
       documentsCleared := some docs.2 }, docs.1)

/-! Upload file naming, from the two upload route variants. -/

/-- File name written by the session-aware upload route (src/unnamed/part_001):
sessionId, the double-underscore ownership marker, fileId, extension. -/
def uploadFilename (sessionId fileId ext : List Char) : List Char :=
  sessionId ++ ownerSep ++ fileId ++ ext

/-- File name written by the other upload route variant
(src/unnamed/part_002): fileId and extension only, no session marker. -/
def uploadFilenameAlt (fileId ext : List Char) : List Char := fileId ++ ext

/-- A concrete environment with no credential configured. -/
def env0 : EmbedEnv :=
  { apiKey := false, fetchEmb := fun _ => none, rng := fun _ => 0 }

/-- A placeholder document record. -/
def emptyDoc : DocumentData :=
  { fileId := [], filename := [], chunks := [], embeddings := [],
    createdAt := [] }

/-- Sample extracted text used in concrete evaluations. -/
def sampleText : List Char := "hello world.".toList

/-- The document actually stored when processing sampleText with no
credential configured. -/
def d0 : DocumentData :=
  (processDocument env0 [] ("f1".toList) ("a.pdf".toList) sampleText).getD
    emptyDoc

/-- Keys of the sessions an idle sweep at the given instant reclaims. -/
def idleKeys (now idleMs : Int) (ms : List (List Char × Int)) :
    List (List Char) :=
  (ms.filter (fun p => idleMs < now - p.2)).map Prod.fst

/-- A document truncated to the common prefix of its chunk and embedding
arrays. -/
def truncDoc (d : DocumentData) : DocumentData :=
  { d with
      chunks := d.chunks.take (min d.chunks.length d.embeddings.length),
      embeddings :=
        d.embeddings.take (min d.chunks.length d.embeddings.length) }

/-- Demonstration state: session s1 idle for two hours, session s2 idle
for thirty minutes, each owning one store entry and one uploaded file. -/
def demoState : SessionState :=
  { sessionMeta := [("s1".toList, 2800000), ("s2".toList, 8200000)],
    documentStore := [("s1".toList, StoreVal.doc emptyDoc),
                      ("s2".toList, StoreVal.doc emptyDoc)],
    files := ["s1__a.pdf".toList, "s2__b.pdf".toList] }

/-- demoState after the idle sweep at instant 10000000: s1 is reclaimed in
full, s2 is untouched. -/
def demoStateAfter : SessionState :=
  { sessionMeta := [("s2".toList, 8200000)],
    documentStore := [("s2".toList, StoreVal.doc emptyDoc)],
    files := ["s2__b.pdf".toList] }

/-! Helper lemmas about trimming. -/

/-- Dropping a whitespace prefix keeps a list containing a non-whitespace
character non-empty. -/
theorem dropWhile_ne_nil_of_ex {p : Char → Bool} {l : List Char}
    (h : ∃ c ∈ l, p c = false) : l.dropWhile p ≠ [] := by
  intro hnil
  obtain ⟨c, hc, hcf⟩ := h
  have := (List.dropWhile_eq_nil_iff.mp hnil) c hc
  simp [this] at hcf

/-- A non-whitespace character survives dropWhile. -/
theorem ex_mem_dropWhile {p : Char → Bool} {l : List Char}
    (h : ∃ c ∈ l, p c = false) : ∃ c ∈ l.dropWhile p, p c = false := by
  induction l with
  | nil => simp at h
  | cons a t ih =>
    by_cases ha : p a
    · rw [List.dropWhile_cons_of_pos ha]
      apply ih
      obtain ⟨c, hc, hcf⟩ := h
      rcases List.mem_cons.mp hc with rfl | hct
      · rw [ha] at hcf; cases hcf
      · exact ⟨c, hct, hcf⟩
    · rw [List.dropWhile_cons_of_neg ha]
      obtain ⟨c, hc, hcf⟩ := h
      exact ⟨c, hc, hcf⟩

/-- A list containing a non-whitespace character trims to a non-empty
list. -/
theorem trimL_ne_nil_of_ex {l : List Char}
    (h : ∃ c ∈ l, isJsWs c = false) : trimL l ≠ [] := by
  unfold trimL
  intro hnil
  rw [List.reverse_eq_nil_iff] at hnil
  obtain ⟨c, hc, hcf⟩ := ex_mem_dropWhile h
  exact dropWhile_ne_nil_of_ex ⟨c, List.mem_reverse.mpr hc, hcf⟩ hnil

/-- The head surviving dropWhile fails the predicate. -/
theorem head?_dropWhile_false {p : Char → Bool} {l : List Char} {c : Char}
    (h : (l.dropWhile p).head? = some c) : p c = false := by
  induction l with
  | nil => simp at h
  | cons a t ih =>
    by_cases ha : p a
    · rw [List.dropWhile_cons_of_pos ha] at h; exact ih h
    · rw [List.dropWhile_cons_of_neg ha] at h
      simp only [List.head?_cons, Option.some.injEq] at h
      subst h
      exact Bool.eq_false_iff.mpr ha

/-- The last character of a trimmed list is not whitespace. -/
theorem trimL_getLast?_not_ws {l : List Char} {c : Char}
    (h : (trimL l).getLast? = some c) : isJsWs c = false := by
  unfold trimL at h
  rw [List.getLast?_reverse] at h
  exact head?_dropWhile_false h

/-- Dropping strictly fewer elements than the length preserves the last
element. -/
theorem getLast?_drop_of_lt {l : List α} :
    ∀ {n : Nat}, n < l.length → (l.drop n).getLast? = l.getLast? := by
  induction l with
  | nil => intro n h; simp at h
  | cons a t ih =>
    intro n h
    match n with
    | 0 => rfl
    | n + 1 =>
      have hn : n < t.length := by simpa using h
      rw [List.drop_succ_cons, ih hn]
      match t, hn with
      | b :: t', _ => rw [List.getLast?_cons_cons]

/-- The window ending at the end of the text trims to a non-empty chunk,
because the text's final character is not whitespace. -/
theorem trim_jsSlice_end_ne {clean : List Char} (hc : clean ≠ [])
    (hl : ∀ c, clean.getLast? = some c → isJsWs c = false)
    {start : Int} (h1 : start < (clean.length : Int)) :
    trimL (jsSlice clean start (clean.length : Int)) ≠ [] := by
  have hlenpos : 0 < clean.length := List.length_pos.mpr hc
  have he0 : jsIndex clean.length (clean.length : Int) = clean.length := by
    unfold jsIndex; simp
  have hs0 : jsIndex clean.length start < clean.length := by
    unfold jsIndex
    split <;> omega
  have hslice : jsSlice clean start (clean.length : Int) =
      clean.drop (jsIndex clean.length start) := by
    unfold jsSlice
    rw [he0, List.take_length]
  obtain ⟨c, hcl⟩ : ∃ c, clean.getLast? = some c := by
    cases hgl : clean.getLast? with
    | none => exact absurd (List.getLast?_eq_none_iff.mp hgl) hc
    | some c => exact ⟨c, rfl⟩
  have hcw := hl c hcl
  rw [hslice]
  apply trimL_ne_nil_of_ex
  refine ⟨c, ?_, hcw⟩
  have : (clean.drop (jsIndex clean.length start)).getLast? = some c := by
    rw [getLast?_drop_of_lt hs0, hcl]
  exact List.mem_of_mem_getLast? (by simp [this])

/-- Main loop analysis for the default parameters: whenever the remaining
fuel dominates the potential, the loop exits by its own condition and it
does so with exactly 50 accumulated chunks, because start never reaches the
end of the text (each pass through the end of the window resets start to
end - 200) while every end-touching window pushes a chunk. -/
theorem chunkGo_some {clean : List Char} (hc : clean ≠ [])
    (hl : ∀ c, clean.getLast? = some c → isJsWs c = false) :
    ∀ (fuel : Nat) (start : Int) (acc : List (List Char)),
      start < (clean.length : Int) → acc.length ≤ 50 →
      ((clean.length : Int) - start).toNat + 200 * (50 - acc.length) < fuel →
      ∃ r, chunkGo clean 1000 200 50 fuel start acc = some r ∧
        r.length = 50 := by
  intro fuel
  induction fuel with
  | zero => intro start acc _ _ h3; exact absurd h3 (Nat.not_lt_zero _)
  | succ f ih =>
    intro start acc h1 h2 h3
    by_cases hfull : acc.length < 50
    · simp only [chunkGo]
      rw [if_pos ⟨h1, hfull⟩]
      have hcast1000 : ((1000 : Nat) : Int) = 1000 := by norm_num
      have hcast200 : ((200 : Nat) : Int) = 200 := by norm_num
      rw [hcast1000, hcast200]
      by_cases hcase : start + 1000 ≤ (clean.length : Int)
      · rw [min_eq_left hcase]
        by_cases ht : trimL (jsSlice clean start (start + 1000)) = []
        · rw [if_pos ht]
          exact ih (start + 1000 - 200) acc (by omega) h2 (by omega)
        · rw [if_neg ht]
          refine ih (start + 1000 - 200) (acc ++ [trimL (jsSlice clean start (start + 1000))])
            (by omega) ?_ ?_
          · simp; omega
          · simp only [List.length_append, List.length_singleton]
            omega
      · have hmin : min (start + 1000) (clean.length : Int) =
            (clean.length : Int) := min_eq_right (by omega)
        rw [hmin]
        have hpush := trim_jsSlice_end_ne hc hl h1
        rw [if_neg hpush]
        refine ih ((clean.length : Int) - 200)
          (acc ++ [trimL (jsSlice clean start (clean.length : Int))])
          (by omega) ?_ ?_
        · simp; omega
        · simp only [List.length_append, List.length_singleton]
          omega
    · have hacc : acc.length = 50 := le_antisymm h2 (le_of_not_lt hfull)
      refine ⟨acc, ?_, hacc⟩
      simp only [chunkGo]
      rw [if_neg (fun hcontr => hfull hcontr.2)]

/-- C5: chunkText terminates on every input within the allotted fuel, and
for every input whose trimmed form is non-empty it returns exactly 50
chunks with the default parameters: once the window end reaches the text's
end, start is reset to end - overlap and no longer advances, so the loop
only stops via the maxChunks bound. -/
theorem claim_C5 :
    ∀ text : List Char,
      (chunkTextRun text).isSome = true ∧
      (trimL text ≠ [] → (chunkText text).length = 50) := by
  intro text
  by_cases htr : trimL text = []
  · constructor
    · unfold chunkTextRun; rw [if_pos htr]; rfl
    · intro h; exact absurd htr h
  · have hl : ∀ c, (trimL text).getLast? = some c → isJsWs c = false :=
      fun c hcl => trimL_getLast?_not_ws hcl
    have hlen : 0 < (trimL text).length := List.length_pos.mpr htr
    obtain ⟨r, hr, h50⟩ := chunkGo_some htr hl
      (chunkFuel (trimL text) 200 50) 0 []
      (by exact_mod_cast hlen) (by simp)
      (by unfold chunkFuel; simp)
    constructor
    · unfold chunkTextRun
      rw [if_neg htr, hr]
      rfl
    · intro _
      unfold chunkText chunkTextRun
      rw [if_neg htr, hr]
      simpa using h50

/-- Witness for C5 at the concrete five-character text hello. -/
theorem claim_C5_witness :
    (chunkTextRun ("hello".toList)).isSome = true ∧
    (chunkText ("hello".toList)).length = 50 :=
  ⟨(claim_C5 _).1, (claim_C5 _).2 (by decide)⟩

/-- C4 fails on the code: for the text hello, of trimmed length 5 with
0 < 5 < 1000, chunkText does not return one chunk equal to the trimmed
text; it returns the same five-character chunk 50 times, because start is
reset to end - overlap = -195 on every iteration and the loop runs until
the maxChunks cap. -/
theorem claim_C4 :
    chunkText ("hello".toList) = List.replicate 50 ("hello".toList) := by
  decide

/-! Cosine similarity lemmas. -/

/-- Pairing a list with itself and multiplying componentwise squares each
component. -/
theorem zip_self_map_mul (v : List ℝ) :
    (v.zip v).map (fun p => p.1 * p.2) = v.map (fun x => x * x) := by
  induction v with
  | nil => rfl
  | cons a t ih => simp [ih]

/-- Cosine similarity of a vector with a non-zero component against itself
is 1. -/
theorem cosineSimilarity_self {v : List ℝ} (hv : ∃ x ∈ v, x ≠ 0) :
    cosineSimilarity v v = 1 := by
  obtain ⟨x, hx, hx0⟩ := hv
  have hne : v ≠ [] := by rintro rfl; simp at hx
  have hlen : v.length ≠ 0 := fun h => hne (List.length_eq_zero.mp h)
  have hS : 0 < (v.map (fun y => y * y)).sum := by
    have hterm : (0 : ℝ) < x * x := mul_self_pos.mpr hx0
    have hmem : x * x ∈ v.map (fun y => y * y) :=
      List.mem_map_of_mem _ hx
    have hnn : ∀ y ∈ v.map (fun y => y * y), (0 : ℝ) ≤ y := by
      rintro y hy
      obtain ⟨z, _, rfl⟩ := List.mem_map.mp hy
      exact mul_self_nonneg z
    exact lt_of_lt_of_le hterm (List.single_le_sum hnn _ hmem)
  have hsq : Real.sqrt ((v.map (fun y => y * y)).sum) ≠ 0 :=
    ne_of_gt (Real.sqrt_pos.mpr hS)
  unfold cosineSimilarity
  rw [if_pos ⟨rfl, hlen⟩, if_neg (by push_neg; exact ⟨hsq, hsq⟩),
    zip_self_map_mul, Real.mul_self_sqrt hS.le, div_self (ne_of_gt hS)]

/-- Cosine similarity against an all-zero vector is 0. -/
theorem cosineSimilarity_zero_right {a b : List ℝ} (hb : ∀ x ∈ b, x = 0) :
    cosineSimilarity a b = 0 := by
  unfold cosineSimilarity
  by_cases h : a.length = b.length ∧ a.length ≠ 0
  · rw [if_pos h, if_pos]
    right
    have hz : (b.map (fun v => v * v)).sum = 0 := by
      apply List.sum_eq_zero
      rintro y hy
      obtain ⟨z, hz, rfl⟩ := List.mem_map.mp hy
      rw [hb z hz]; ring
    rw [hz, Real.sqrt_zero]
  · rw [if_neg h]

/-- The componentwise products of a zip are unchanged when the two lists
are swapped. -/
theorem zip_swap_map_mul (a : List ℝ) :
    ∀ b : List ℝ, (a.zip b).map (fun p => p.1 * p.2) =
      (b.zip a).map (fun p => p.1 * p.2) := by
  induction a with
  | nil => intro b; cases b <;> rfl
  | cons x xs ih =>
    intro b
    cases b with
    | nil => rfl
    | cons y ys => simp [ih ys, mul_comm]

/-- Cosine similarity is symmetric. -/
theorem cosineSimilarity_comm (a b : List ℝ) :
    cosineSimilarity a b = cosineSimilarity b a := by
  unfold cosineSimilarity
  by_cases h : a.length = b.length
  · by_cases hz : a.length = 0
    · have hnL : ¬(a.length = b.length ∧ a.length ≠ 0) := fun hh => hh.2 hz
      have hnR : ¬(b.length = a.length ∧ b.length ≠ 0) :=
        fun hh => hh.2 (h ▸ hz)
      rw [if_neg hnL, if_neg hnR]
    · have hL : a.length = b.length ∧ a.length ≠ 0 := ⟨h, hz⟩
      have hR : b.length = a.length ∧ b.length ≠ 0 :=
        ⟨h.symm, fun hh => hz (h.symm ▸ hh)⟩
      rw [if_pos hL, if_pos hR]
      by_cases hm : Real.sqrt ((a.map (fun v => v * v)).sum) = 0 ∨
          Real.sqrt ((b.map (fun v => v * v)).sum) = 0
      · rw [if_pos hm, if_pos (Or.symm hm)]
      · rw [if_neg hm, if_neg (fun hh => hm (Or.symm hh)),
          zip_swap_map_mul, mul_comm]
  · have hnL : ¬(a.length = b.length ∧ a.length ≠ 0) := fun hh => h hh.1
    have hnR : ¬(b.length = a.length ∧ b.length ≠ 0) :=
      fun hh => h hh.1.symm
    rw [if_neg hnL, if_neg hnR]

/-- C7: cosine similarity is 1 on any non-zero vector against itself, 0
against a zero-magnitude vector, symmetric in its arguments, and 0 on
mismatched-length inputs rather than an error. -/
theorem claim_C7 :
    (∀ v : List ℝ, (∃ x ∈ v, x ≠ 0) → cosineSimilarity v v = 1) ∧
    (∀ a b : List ℝ, (∀ x ∈ b, x = 0) → cosineSimilarity a b = 0) ∧
    (∀ a b : List ℝ, cosineSimilarity a b = cosineSimilarity b a) ∧
    (∀ a b : List ℝ, a.length ≠ b.length → cosineSimilarity a b = 0) :=
  ⟨fun _ hv => cosineSimilarity_self hv,
   fun _ _ hb => cosineSimilarity_zero_right hb,
   fun a b => cosineSimilarity_comm a b,
   fun _ _ h => by
     unfold cosineSimilarity
     rw [if_neg (fun hh => h hh.1)]⟩

/-- Witness for C7 on concrete vectors. -/
theorem claim_C7_witness :
    ((∃ x ∈ [(3 : ℝ), 4], x ≠ 0) ∧ cosineSimilarity [(3 : ℝ), 4] [3, 4] = 1) ∧
    ((∀ x ∈ [(0 : ℝ), 0], x = 0) ∧ cosineSimilarity [(1 : ℝ), 2] [0, 0] = 0) ∧
    cosineSimilarity [(1 : ℝ), 2] [3] = 0 := by
  have hv : ∃ x ∈ [(3 : ℝ), 4], x ≠ 0 := ⟨3, by simp, by norm_num⟩
  have hz : ∀ x ∈ [(0 : ℝ), 0], x = 0 := by
    intro x hx
    rcases List.mem_cons.mp hx with rfl | hx
    · rfl
    · rcases List.mem_cons.mp hx with rfl | hx
      · rfl
      · simp at hx
  exact ⟨⟨hv, claim_C7.1 _ hv⟩, ⟨hz, claim_C7.2.1 _ _ hz⟩,
    claim_C7.2.2.2 _ _ (by simp)⟩

/-! Retrieval lemmas. -/

/-- Unfolding of the stable insert on an empty pool. -/
theorem insertDesc_nil (x : List Char × ℝ) : insertDesc x [] = [x] := rfl

/-- The stable insert passes in front of a strictly smaller head. -/
theorem insertDesc_cons_of_lt {x y : List Char × ℝ} {ys : List (List Char × ℝ)}
    (h : y.2 < x.2) : insertDesc x (y :: ys) = x :: y :: ys := by
  simp only [insertDesc]
  rw [if_pos h]

/-- The stable insert goes past a head of similarity at least its own. -/
theorem insertDesc_cons_of_ge {x y : List Char × ℝ} {ys : List (List Char × ℝ)}
    (h : ¬y.2 < x.2) : insertDesc x (y :: ys) = y :: insertDesc x ys := by
  simp only [insertDesc]
  rw [if_neg h]

/-- Truncating two lists to the length of the shorter changes nothing about
their zip. -/
theorem zip_take_min :
    ∀ (l1 : List α) (l2 : List β),
      (l1.take (min l1.length l2.length)).zip
        (l2.take (min l1.length l2.length)) = l1.zip l2 := by
  intro l1
  induction l1 with
  | nil => intro l2; simp
  | cons x xs ih =>
    intro l2
    cases l2 with
    | nil => simp
    | cons y ys =>
      simp only [List.length_cons, Nat.succ_min_succ, List.take_succ_cons,
        List.zip_cons_cons]
      rw [ih ys]

/-- The candidate pool only sees the common prefix of each document's chunk
and embedding arrays. -/
theorem candidateChunks_trunc (q : List ℝ) (docs : List DocumentData) :
    candidateChunks q (docs.map truncDoc) = candidateChunks q docs := by
  unfold candidateChunks
  induction docs with
  | nil => rfl
  | cons d ds ih =>
    simp only [List.map_cons, List.flatMap_cons, ih]
    congr 1
    show ((d.chunks.take (min d.chunks.length d.embeddings.length)).zip
      (d.embeddings.take (min d.chunks.length d.embeddings.length))).filterMap _
        = (d.chunks.zip d.embeddings).filterMap _
    rw [zip_take_min]

/-- Retrieval is unchanged by truncating every document to the common
prefix of its chunk and embedding arrays. -/
theorem retrieve_trunc (q : List ℝ) (docs : List DocumentData) (k : Nat) :
    retrieveRelevantChunks q (docs.map truncDoc) k =
      retrieveRelevantChunks q docs k := by
  unfold retrieveRelevantChunks
  rw [candidateChunks_trunc, List.length_map]

/-- Every candidate kept by the retrieval loop has strictly positive
similarity. -/
theorem candidate_sims_pos (q : List ℝ) (docs : List DocumentData) :
    ∀ p ∈ candidateChunks q docs, 0 < p.2 := by
  intro p hp
  unfold candidateChunks at hp
  obtain ⟨d, _, hpd⟩ := List.mem_flatMap.mp hp
  obtain ⟨x, _, hfx⟩ := List.mem_filterMap.mp hpd
  by_cases h1 : trimL x.1 = []
  · rw [if_pos h1] at hfx; cases hfx
  · rw [if_neg h1] at hfx
    by_cases h2 : 0 < cosineSimilarity q x.2
    · rw [if_pos h2] at hfx
      injection hfx with hfx
      subst hfx
      exact h2
    · rw [if_neg h2] at hfx; cases hfx

/-- An empty candidate pool yields an empty retrieval result rather than
an error. -/
theorem retrieve_empty_of_no_candidates {q : List ℝ}
    {docs : List DocumentData} {k : Nat}
    (h : candidateChunks q docs = []) :
    retrieveRelevantChunks q docs k = [] := by
  unfold retrieveRelevantChunks
  split
  · rfl
  · split
    · rfl
    · rw [if_pos (by simp [h])]

/-- Retrieval returns at most topK clamped to [1, 10] chunks. -/
theorem retrieve_len_le (q : List ℝ) (docs : List DocumentData) (k : Nat) :
    (retrieveRelevantChunks q docs k).length ≤ max 1 (min k 10) := by
  unfold retrieveRelevantChunks
  split
  · simp
  · split
    · simp
    · split
      · simp
      · rw [List.length_map]
        exact List.length_take_le _ _

/-- Ordering instance: a single document holding three chunks of
similarities 9/10, 1/10 and 1/2 retrieved with topK 2 returns the 9/10
chunk then the 1/2 chunk. -/
theorem retrieve_instance (q e1 e2 e3 : List ℝ)
    (c1 c2 c3 fid fn ca : List Char) (hq : q.length ≠ 0)
    (h1 : trimL c1 = c1) (h1n : c1 ≠ [])
    (h2 : trimL c2 = c2) (h2n : c2 ≠ [])
    (h3 : trimL c3 = c3) (h3n : c3 ≠ [])
    (hs1 : cosineSimilarity q e1 = 9 / 10)
    (hs2 : cosineSimilarity q e2 = 1 / 10)
    (hs3 : cosineSimilarity q e3 = 1 / 2) :
    retrieveRelevantChunks q
      [{ fileId := fid, filename := fn, chunks := [c1, c2, c3],
         embeddings := [e1, e2, e3], createdAt := ca }] 2 = [c1, c3] := by
  have hcand : candidateChunks q
      [{ fileId := fid, filename := fn, chunks := [c1, c2, c3],
         embeddings := [e1, e2, e3], createdAt := ca }] =
      [(c1, 9 / 10), (c2, 1 / 10), (c3, 1 / 2)] := by
    unfold candidateChunks
    simp only [List.flatMap_cons, List.flatMap_nil, List.append_nil,
      List.zip_cons_cons, List.zip_nil_left, List.filterMap_cons,
      List.filterMap_nil, h1, h2, h3, hs1, hs2, hs3, if_neg h1n,
      if_neg h2n, if_neg h3n]
    norm_num
  unfold retrieveRelevantChunks
  rw [hcand, if_neg (by simp), if_neg hq, if_neg (by simp)]
  have hsort : sortDesc [(c1, (9 : ℝ) / 10), (c2, 1 / 10), (c3, 1 / 2)] =
      [(c1, 9 / 10), (c3, 1 / 2), (c2, 1 / 10)] := by
    unfold sortDesc
    simp only [List.foldl_cons, List.foldl_nil, insertDesc_nil]
    rw [insertDesc_cons_of_ge (by norm_num), insertDesc_nil,
      insertDesc_cons_of_ge (by norm_num),
      insertDesc_cons_of_lt (by norm_num)]
  rw [hsort]
  norm_num

/-- Tie instance: two chunks of equal similarity are returned in insertion
order (the sort is stable). -/
theorem retrieve_tie (q e1 e2 : List ℝ) (c1 c2 fid fn ca : List Char)
    (hq : q.length ≠ 0)
    (h1 : trimL c1 = c1) (h1n : c1 ≠ [])
    (h2 : trimL c2 = c2) (h2n : c2 ≠ [])
    (hs1 : cosineSimilarity q e1 = 1 / 2)
    (hs2 : cosineSimilarity q e2 = 1 / 2) :
    retrieveRelevantChunks q
      [{ fileId := fid, filename := fn, chunks := [c1, c2],
         embeddings := [e1, e2], createdAt := ca }] 2 = [c1, c2] := by
  have hcand : candidateChunks q
      [{ fileId := fid, filename := fn, chunks := [c1, c2],
         embeddings := [e1, e2], createdAt := ca }] =
      [(c1, 1 / 2), (c2, 1 / 2)] := by
    unfold candidateChunks
    simp only [List.flatMap_cons, List.flatMap_nil, List.append_nil,
      List.zip_cons_cons, List.zip_nil_left, List.filterMap_cons,
      List.filterMap_nil, h1, h2, hs1, hs2, if_neg h1n, if_neg h2n]
    norm_num
  unfold retrieveRelevantChunks
  rw [hcand, if_neg (by simp), if_neg hq, if_neg (by simp)]
  have hsort : sortDesc [(c1, (1 : ℝ) / 2), (c2, 1 / 2)] =
      [(c1, 1 / 2), (c2, 1 / 2)] := by
    unfold sortDesc
    simp only [List.foldl_cons, List.foldl_nil, insertDesc_nil]
    rw [insertDesc_cons_of_ge (by norm_num), insertDesc_nil]
  rw [hsort]
  norm_num

/-- C6: retrieval pairs chunks with embeddings only up to the common prefix
length, keeps only strictly positive similarities, returns at most topK
clamped to [1, 10] chunk texts sorted descending with ties in insertion
order, retrieves the 9/10 chunk then the 1/2 chunk out of similarities
9/10, 1/10, 1/2 at topK 2, and returns an empty sequence when nothing
matches. -/
theorem claim_C6 :
    (∀ (q : List ℝ) (docs : List DocumentData) (k : Nat),
      retrieveRelevantChunks q (docs.map truncDoc) k =
        retrieveRelevantChunks q docs k) ∧
    (∀ (q : List ℝ) (docs : List DocumentData),
      ∀ p ∈ candidateChunks q docs, 0 < p.2) ∧
    (∀ (q : List ℝ) (docs : List DocumentData) (k : Nat),
      (retrieveRelevantChunks q docs k).length ≤ max 1 (min k 10)) ∧
    (∀ (q : List ℝ) (docs : List DocumentData) (k : Nat),
      candidateChunks q docs = [] → retrieveRelevantChunks q docs k = []) ∧
    (∀ (q e1 e2 e3 : List ℝ) (c1 c2 c3 fid fn ca : List Char),
      q.length ≠ 0 →
      trimL c1 = c1 → c1 ≠ [] → trimL c2 = c2 → c2 ≠ [] →
      trimL c3 = c3 → c3 ≠ [] →
      cosineSimilarity q e1 = 9 / 10 →
      cosineSimilarity q e2 = 1 / 10 →
      cosineSimilarity q e3 = 1 / 2 →
      retrieveRelevantChunks q
        [{ fileId := fid, filename := fn, chunks := [c1, c2, c3],
           embeddings := [e1, e2, e3], createdAt := ca }] 2 = [c1, c3]) ∧
    (∀ (q e1 e2 : List ℝ) (c1 c2 fid fn ca : List Char),
      q.length ≠ 0 →
      trimL c1 = c1 → c1 ≠ [] → trimL c2 = c2 → c2 ≠ [] →
      cosineSimilarity q e1 = 1 / 2 → cosineSimilarity q e2 = 1 / 2 →
      retrieveRelevantChunks q
        [{ fileId := fid, filename := fn, chunks := [c1, c2],
           embeddings := [e1, e2], createdAt := ca }] 2 = [c1, c2]) :=
  ⟨retrieve_trunc, candidate_sims_pos, retrieve_len_le,
   fun _ _ _ h => retrieve_empty_of_no_candidates h,
   fun q e1 e2 e3 c1 c2 c3 fid fn ca hq ha1 h1n h2 h2n h3 h3n hs1 hs2 hs3 =>
     retrieve_instance q e1 e2 e3 c1 c2 c3 fid fn ca hq ha1 h1n h2 h2n h3 h3n
       hs1 hs2 hs3,
   fun q e1 e2 c1 c2 fid fn ca hq h1 h1n h2 h2n hs1 hs2 =>
     retrieve_tie q e1 e2 c1 c2 fid fn ca hq h1 h1n h2 h2n hs1 hs2⟩

/-- Witness for C6 on concrete unit vectors realising the similarities
9/10, 1/10 and 1/2 against the query, and the no-match case. -/
theorem claim_C6_witness :
    retrieveRelevantChunks [(1 : ℝ), 0, 0, 0]
      [{ fileId := [], filename := [],
         chunks := ["alpha".toList, "beta".toList, "gamma".toList],
         embeddings := [[9 / 10, 3 / 10, 3 / 10, 1 / 10],
                        [1 / 10, 7 / 10, 7 / 10, 1 / 10],
                        [1 / 2, 1 / 2, 1 / 2, 1 / 2]],
         createdAt := [] }] 2 = ["alpha".toList, "gamma".toList] ∧
    retrieveRelevantChunks [(1 : ℝ), 0, 0, 0] [] 2 = [] := by
  constructor
  · exact claim_C6.2.2.2.2.1 [(1 : ℝ), 0, 0, 0]
      [9 / 10, 3 / 10, 3 / 10, 1 / 10]
      [1 / 10, 7 / 10, 7 / 10, 1 / 10]
      [1 / 2, 1 / 2, 1 / 2, 1 / 2]
      ("alpha".toList) ("beta".toList) ("gamma".toList) [] [] []
      (by simp) (by decide) (by decide) (by decide) (by decide)
      (by decide) (by decide)
      (by unfold cosineSimilarity; norm_num [Real.sqrt_one])
      (by unfold cosineSimilarity; norm_num [Real.sqrt_one])
      (by unfold cosineSimilarity; norm_num [Real.sqrt_one])
  · exact claim_C6.2.2.2.1 [(1 : ℝ), 0, 0, 0] [] 2 rfl

/-! Embedding client lemmas. -/

/-- The number of vectors generateEmbeddings returns is the validated,
deduplicated, 50-capped text count, with a floor of one dummy vector. -/
theorem generateEmbeddings_len (env : EmbedEnv) (texts : List (List Char)) :
    (generateEmbeddings env texts).1.length =
      max 1 (min (validateAndCleanChunks texts).length 50) := by
  simp only [generateEmbeddings]
  by_cases hv : validateAndCleanChunks texts = []
  · rw [if_pos hv, hv]
    simp [generateDummyEmbeddings]
  · rw [if_neg hv]
    have hnz : 0 < (validateAndCleanChunks texts).length :=
      List.length_pos.mpr hv
    by_cases hk : env.apiKey = false
    · rw [if_pos hk]
      simp only [generateDummyEmbeddings, List.length_map,
        List.length_range, List.length_take]
      omega
    · rw [if_neg hk]
      simp only [List.length_map, List.enum_length, List.length_take]
      omega

/-- With no credential configured, generateEmbeddings makes no remote
call. -/
theorem generateEmbeddings_noKey_calls (env : EmbedEnv)
    (texts : List (List Char)) (hk : env.apiKey = false) :
    (generateEmbeddings env texts).2 = 0 := by
  simp only [generateEmbeddings]
  by_cases hv : validateAndCleanChunks texts = []
  · rw [if_pos hv]
  · rw [if_neg hv, if_pos hk]

/-- With no credential configured, every vector generateEmbeddings returns
has the fixed dummy dimensionality 1536. -/
theorem generateEmbeddings_noKey_dim (env : EmbedEnv)
    (texts : List (List Char)) (hk : env.apiKey = false) :
    ∀ v ∈ (generateEmbeddings env texts).1, v.length = 1536 := by
  intro v hv
  simp only [generateEmbeddings] at hv
  by_cases hval : validateAndCleanChunks texts = []
  · rw [if_pos hval] at hv
    simp only [generateDummyEmbeddings, List.mem_map] at hv
    obtain ⟨j, _, rfl⟩ := hv
    simp [generateSingleDummyEmbedding]
  · rw [if_neg hval, if_pos hk] at hv
    simp only [generateDummyEmbeddings, List.mem_map] at hv
    obtain ⟨j, _, rfl⟩ := hv
    simp [generateSingleDummyEmbedding]

/-- C3 fails on the code at the input [a, b] with no credential: both
texts are dropped by validation (trimmed length below 3), so a single
dummy vector is returned, not two. -/
theorem claim_C3_cex :
    (generateEmbeddings env0 [("a".toList), ("b".toList)]).1.length = 1 ∧
    decide ((generateEmbeddings env0
      [("a".toList), ("b".toList)]).1.length = 2) = false := by
  exact ⟨rfl, rfl⟩

/-- C3 amended: generateEmbeddings is total and, with no credential
configured, makes no network call and returns max 1 (min 50 n) vectors of
length 1536, where n counts the validated (trimmed length at least 3,
deduplicated) input texts; n can be smaller than the input length, and on
[a, b] a single vector is returned. -/
theorem claim_C3_amended :
    ∀ (env : EmbedEnv) (texts : List (List Char)), env.apiKey = false →
      (generateEmbeddings env texts).2 = 0 ∧
      (generateEmbeddings env texts).1.length =
        max 1 (min (validateAndCleanChunks texts).length 50) ∧
      ∀ v ∈ (generateEmbeddings env texts).1, v.length = 1536 :=
  fun env texts hk =>
    ⟨generateEmbeddings_noKey_calls env texts hk,
     generateEmbeddings_len env texts,
     generateEmbeddings_noKey_dim env texts hk⟩

/-- Witness for C3 amended at the concrete credential-free environment and
the input [a, b]. -/
theorem claim_C3_amended_witness :
    (generateEmbeddings env0 [("a".toList), ("b".toList)]).2 = 0 ∧
    (generateEmbeddings env0 [("a".toList), ("b".toList)]).1.length =
      max 1 (min (validateAndCleanChunks
        [("a".toList), ("b".toList)]).length 50) ∧
    ∀ v ∈ (generateEmbeddings env0 [("a".toList), ("b".toList)]).1,
      v.length = 1536 :=
  claim_C3_amended env0 [("a".toList), ("b".toList)] rfl

/-- C2 fails on the code: processing the twelve-character text
hello world. stores 50 chunks (the same window repeated) but only one
embedding, because embedding-side validation deduplicates while storage
keeps the raw chunk list. -/
theorem claim_C2_cex :
    ((processDocument env0 [] ("f1".toList) ("a.pdf".toList)
        sampleText).map
      (fun d => decide (d.chunks.length = d.embeddings.length)))
      = some false ∧
    ((processDocument env0 [] ("f1".toList) ("a.pdf".toList)
        sampleText).map
      (fun d => (d.chunks.length, d.embeddings.length))) = some (50, 1) := by
  exact ⟨rfl, rfl⟩

/-- C2 amended: the stored chunks are the raw chunkText output while the
stored embeddings correspond to the validated (trimmed length at least 3,
deduplicated, 50-capped) chunks, with a floor of one dummy vector, so the
two stored arrays can differ in length; retrieval compensates by pairing
only the common prefix. -/
theorem claim_C2_amended :
    ∀ (env : EmbedEnv) (nowIso fileId filename text : List Char)
      (d : DocumentData),
      processDocument env nowIso fileId filename text = some d →
      d.chunks = chunkText text ∧
      d.embeddings.length =
        max 1 (min (validateAndCleanChunks (chunkText text)).length 50) := by
  intro env nowIso fileId filename text d h
  simp only [processDocument] at h
  by_cases ht : (trimL text).length < 10
  · rw [if_pos ht] at h; cases h
  · rw [if_neg ht] at h
    by_cases hcz : chunkText text = []
    · rw [if_pos hcz] at h; cases h
    · rw [if_neg hcz] at h
      obtain rfl := Option.some.inj h
      exact ⟨rfl, generateEmbeddings_len env (chunkText text)⟩

/-- Witness for C2 amended at the concrete stored document d0. -/
theorem claim_C2_amended_witness :
    d0.chunks = chunkText sampleText ∧
    d0.embeddings.length =
      max 1 (min (validateAndCleanChunks (chunkText sampleText)).length 50) :=
  claim_C2_amended env0 [] ("f1".toList) ("a.pdf".toList) sampleText d0 rfl

/-! Store and chat lemmas. -/

/-- A member of the store after Map.set is an old member or the new
binding. -/
theorem mem_setKey {store : List (List Char × StoreVal)} {k : List Char}
    {v : StoreVal} {p : List Char × StoreVal} (h : p ∈ setKey store k v) :
    p ∈ store ∨ p = (k, v) := by
  unfold setKey at h
  by_cases hany : store.any (fun q => q.1 = k)
  · rw [if_pos hany] at h
    obtain ⟨q, hq, hqe⟩ := List.mem_map.mp h
    by_cases hqk : q.1 = k
    · right; rw [if_pos hqk] at hqe; exact hqe.symm
    · left; rw [if_neg hqk] at hqe; exact hqe ▸ hq
  · rw [if_neg hany] at h
    rcases List.mem_append.mp h with h | h
    · exact Or.inl h
    · right; simpa using h

/-- Every value in a store built exclusively by the processing endpoint is
a plain document record, never a nested Map. -/
theorem storeAllDoc (env : EmbedEnv) :
    ∀ (jobs : List (List Char × List Char × List Char × List Char))
      (st : List (List Char × StoreVal)),
      (∀ p ∈ st, ∃ d, p.2 = StoreVal.doc d) →
      ∀ p ∈ jobs.foldl
        (fun s j => processDocumentStore env j.1 j.2.1 j.2.2.1 j.2.2.2 s) st,
        ∃ d, p.2 = StoreVal.doc d := by
  intro jobs
  induction jobs with
  | nil => intro st hst p hp; exact hst p hp
  | cons j js ih =>
    intro st hst p hp
    rw [List.foldl_cons] at hp
    refine ih _ ?_ p hp
    intro q hq
    unfold processDocumentStore at hq
    cases hpd : processDocument env j.1 j.2.1 j.2.2.1 j.2.2.2 with
    | none => rw [hpd] at hq; exact hst q hq
    | some d =>
      rw [hpd] at hq
      rcases mem_setKey hq with hold | hnew
      · exact hst q hold
      · exact ⟨d, by rw [hnew]⟩

/-- When every store value is a plain document record, the chat handler's
runtime Map check fails and the messages are forwarded unchanged. -/
theorem chat_noop_of_doc_store {env : EmbedEnv}
    {store : List (List Char × StoreVal)} {sid : Option (List Char)}
    {msgs : List ChatMsg}
    (h : ∀ p ∈ store, ∃ d, p.2 = StoreVal.doc d) :
    chatProcessMessages env store sid msgs true = msgs := by
  unfold chatProcessMessages
  rw [if_neg (by simp)]
  cases sid with
  | none => rfl
  | some s =>
    cases hv : lookupKey store s with
    | none => simp [hv]
    | some v =>
      cases v with
      | doc d => simp [hv]
      | map m =>
        exfalso
        unfold lookupKey at hv
        obtain ⟨q, hq, hqv⟩ := Option.map_eq_some'.mp hv
        obtain ⟨d, hd⟩ := h q (List.mem_of_find?_eq_some hq)
        rw [hqv] at hd
        cases hd

/-- C1 fails on the code: the processing endpoint stores each document
record under its fileId key, while the chat handler looks the sessionId up
and additionally requires the value to be a Map, so for any sequence of
ingested documents a useRAG chat request forwards its messages unchanged
and no system context message is ever inserted.  The second conjunct shows
the scenario is not vacuous: processing sampleText does store a document. -/
theorem claim_C1 :
    (∀ (env : EmbedEnv)
      (jobs : List (List Char × List Char × List Char × List Char))
      (sid : Option (List Char)) (msgs : List ChatMsg),
      chatProcessMessages env
        (jobs.foldl
          (fun s j => processDocumentStore env j.1 j.2.1 j.2.2.1 j.2.2.2 s)
          []) sid msgs true = msgs) ∧
    (lookupKey (processDocumentStore env0 [] ("f1".toList) ("a.pdf".toList)
      sampleText []) ("f1".toList)).isSome = true := by
  constructor
  · intro env jobs sid msgs
    exact chat_noop_of_doc_store (storeAllDoc env jobs [] (by simp))
  · rfl

/-! Idle sweep lemmas. -/

/-- Characterisation of the sweep fold: every entry of the original
activity map is visited; each component of the state ends up filtered by
the keys of the idle sessions, and the count grows by the number of idle
sessions visited. -/
theorem cleanup_foldl (now idleMs : Int) :
    ∀ (ms : List (List Char × Int)) (s : SessionState) (c : Nat),
      ms.foldl (cleanupStep now idleMs) (s, c) =
        ({ sessionMeta := s.sessionMeta.filter
            (fun q => !((idleKeys now idleMs ms).contains q.1)),
           documentStore := s.documentStore.filter
            (fun q => !((idleKeys now idleMs ms).contains q.1)),
           files := s.files.filter
            (fun f => !((idleKeys now idleMs ms).any
              (fun k => startsWithL (k ++ ownerSep) f))) },
         c + (ms.filter (fun p => idleMs < now - p.2)).length) := by
  intro ms
  induction ms with
  | nil =>
    intro s c
    simp [idleKeys]
  | cons p ms ihm =>
    intro s c
    rw [List.foldl_cons]
    by_cases hp : idleMs < now - p.2
    · have hstep : cleanupStep now idleMs (s, c) p =
          ({ sessionMeta := s.sessionMeta.filter (fun q => q.1 ≠ p.1),
             documentStore := s.documentStore.filter (fun q => q.1 ≠ p.1),
             files := s.files.filter
               (fun f => !(startsWithL (p.1 ++ ownerSep) f)) }, c + 1) := by
        unfold cleanupStep; rw [if_pos hp]
      have hkeys : idleKeys now idleMs (p :: ms) =
          p.1 :: idleKeys now idleMs ms := by
        unfold idleKeys
        rw [List.filter_cons_of_pos (by simpa using hp)]
        rfl
      rw [hstep, ihm, hkeys, List.filter_cons_of_pos (by simpa using hp)]
      have hpt : ∀ x : List Char,
          (!((idleKeys now idleMs ms).contains x) && decide (x ≠ p.1)) =
            !((p.1 :: idleKeys now idleMs ms).contains x) := by
        intro x
        by_cases hx : x = p.1 <;>
          by_cases hc : (idleKeys now idleMs ms).contains x <;>
            simp [hx, hc, List.contains_cons]
      have hft : ∀ f : List Char,
          (!((idleKeys now idleMs ms).any
              (fun k => startsWithL (k ++ ownerSep) f)) &&
            !(startsWithL (p.1 ++ ownerSep) f)) =
          !((p.1 :: idleKeys now idleMs ms).any
              (fun k => startsWithL (k ++ ownerSep) f)) := by
        intro f
        by_cases h1 : startsWithL (p.1 ++ ownerSep) f <;>
          by_cases h2 : (idleKeys now idleMs ms).any
              (fun k => startsWithL (k ++ ownerSep) f) <;>
            simp [h1, h2, List.any_cons]
      refine congrArg₂ Prod.mk ?_ (by simp; omega)
      simp only [SessionState.mk.injEq]
      refine ⟨?_, ?_, ?_⟩
      · rw [List.filter_filter]
        exact List.filter_congr (fun a _ => hpt a.1)
      · rw [List.filter_filter]
        exact List.filter_congr (fun a _ => hpt a.1)
      · rw [List.filter_filter]
        exact List.filter_congr (fun a _ => hft a)
    · have hstep : cleanupStep now idleMs (s, c) p = (s, c) := by
        unfold cleanupStep; rw [if_neg hp]
      have hkeys : idleKeys now idleMs (p :: ms) = idleKeys now idleMs ms := by
        unfold idleKeys
        rw [List.filter_cons_of_neg (by simpa using hp)]
      rw [hstep, ihm, hkeys, List.filter_cons_of_neg (by simpa using hp)]

/-- C8: with the one-hour threshold, the idle sweep reclaims exactly the
sessions whose idleness strictly exceeds the threshold: the returned count
is the number of such sessions, the surviving activity and store entries
are exactly those whose key is not reclaimed, and the surviving files are
exactly those not carrying a reclaimed session's ownership marker.
Concretely, a session idle for two hours loses its file, store entry and
activity entry and is counted, while a session idle for thirty minutes is
left untouched. -/
theorem claim_C8 :
    (∀ (now : Int) (st : SessionState),
      (cleanupIdleSessions now st).2 =
        (st.sessionMeta.filter (fun p => 3600000 < now - p.2)).length ∧
      (cleanupIdleSessions now st).1.sessionMeta =
        st.sessionMeta.filter
          (fun q => !((idleKeys now 3600000 st.sessionMeta).contains q.1)) ∧
      (cleanupIdleSessions now st).1.documentStore =
        st.documentStore.filter
          (fun q => !((idleKeys now 3600000 st.sessionMeta).contains q.1)) ∧
      (cleanupIdleSessions now st).1.files =
        st.files.filter
          (fun f => !((idleKeys now 3600000 st.sessionMeta).any
            (fun k => startsWithL (k ++ ownerSep) f)))) ∧
    cleanupIdleSessions 10000000 demoState = (demoStateAfter, 1) := by
  constructor
  · intro now st
    unfold cleanupIdleSessions
    rw [cleanup_foldl now 3600000 st.sessionMeta st 0]
    exact ⟨by simp, rfl, rfl, rfl⟩
  · rfl

/-- C9 fails on the code: the second upload route variant writes the file
for fileId f1 and extension .pdf under the name f1.pdf, which does not
follow the claimed sessionId__fileId.ext pattern and is not identified by
the prefix match of any owning session such as s1. -/
theorem claim_C9_cex :
    decide (uploadFilenameAlt ("f1".toList) (".pdf".toList) =
      uploadFilename ("s1".toList) ("f1".toList) (".pdf".toList)) = false ∧
    startsWithL (("s1".toList) ++ ownerSep)
      (uploadFilenameAlt ("f1".toList) (".pdf".toList)) = false := by
  exact ⟨rfl, rfl⟩

/-- C9 amended: files written by the session-aware upload route follow the
sessionId__fileId.ext pattern and are matched by their session's
startsWith(sessionId + marker) check, while the second upload route
variant writes fileId.ext with no session marker, which that check does
not identify. -/
theorem claim_C9_amended :
    ∀ sessionId fileId ext : List Char,
      uploadFilename sessionId fileId ext =
        sessionId ++ ownerSep ++ fileId ++ ext ∧
      startsWithL (sessionId ++ ownerSep)
        (uploadFilename sessionId fileId ext) = true ∧
      uploadFilenameAlt fileId ext = fileId ++ ext := by
  intro sessionId fileId ext
  refine ⟨rfl, ?_, rfl⟩
  unfold startsWithL uploadFilename
  rw [List.append_assoc (sessionId ++ ownerSep) fileId ext,
    List.take_left]
  simp

/-- C10: the cleanup endpoint called with no session cookie still performs
the idle sweep first, then returns status 400 with success false, the
no-session error message, and the sweep's idleCleaned count in the error
body; the resulting state is exactly the swept state. -/
theorem claim_C10 :
    ∀ (now : Int) (st : SessionState),
      cleanupPOST now none st =
        ({ status := 400, success := false, error := some noSessionMsg,
           idleCleaned := (cleanupIdleSessions now st).2,
           uploadsDeleted := none, documentsCleared := none },
         (cleanupIdleSessions now st).1) := by
  intro now st
  rfl

end PdfChat
